import Mathlib

/-!
Shallow embedding of the execution-strategy core of `tettuan/go-local-ci`:
the exit-code classifier, the strategy selector and decision engine
(`StrategyController`), the fallback coordinator (`FallbackExecutor`) and
the concurrency-bounded batch runner (`TestExecutor.executeParallel`,
`ParallelTestExecutor`).  TypeScript `number` fields holding counts are
modelled as `Nat`, process exit codes as `Int`, and the float arithmetic on
error rates by exact rationals with the JavaScript corner cases
(`NaN`/`Infinity` from division by zero, falsiness of `0` and `""`)
spelled out at each use site.
-/

namespace GoLocalCI

/-- `Result` from `src/shared/result.ts`:
`{ ok: true; data: T } | { ok: false; error: E }`. -/
inductive Result (T : Type) (E : Type) where
  | success (data : T)
  | failure (error : E)
deriving DecidableEq

/-- `ProcessResult` from `src/src/domains/test-execution/types.ts` (lines 38-45).
`signal?: string` becomes `Option String`; the millisecond float `duration`
becomes `Nat` (never read by `classifyExitCode`). -/
structure ProcessResult where
  exitCode : Int
  signal : Option String
  stdout : String
  stderr : String
  duration : Nat
  killed : Bool
deriving DecidableEq

/-- JavaScript truthiness of a `string | undefined` value:
`undefined` and `""` are falsy, every other string is truthy. -/
def strTruthy : Option String → Bool
  | none => false
  | some s => s != ""

/-- `ExitCodeClassification` from `src/src/domains/test-execution/types.ts`
(lines 237-243).  The first four variants carry fixed literal codes in the
source (`code: 0/1/2/124`), so only `killed` and `unknown` need payload here;
`classification.code` for the fixed variants is the corresponding literal. -/
inductive ExitCodeClassification where
  | success
  | testFailure
  | buildError
  | timeout
  | killed (code : Int) (signal : String)
  | unknown (code : Int)
deriving DecidableEq

/-- `classifyExitCode` from `src/src/domains/test-execution/types.ts`
(lines 248-270), guard for guard.  The source's truthiness test
`result.killed && result.signal` is `result.killed && strTruthy result.signal`;
inside that branch the source returns `result.signal`, which the guard
guarantees is a non-empty string, rendered as `result.signal.getD ""`. -/
def classifyExitCode (result : ProcessResult) : ExitCodeClassification :=
  if result.exitCode = 0 then .success
  else if result.exitCode = 1 ∧ result.killed = false then .testFailure
  else if result.exitCode = 2 then .buildError
  else if result.exitCode = 124 then .timeout
  else if result.killed = true ∧ strTruthy result.signal = true then
    .killed result.exitCode (result.signal.getD "")
  else .unknown result.exitCode

/-- `ExecutionStrategy` from the error-control domain types: variants
`all-at-once{parallel}`, `batch{batchSize, parallel}`,
`directory-by-directory{maxConcurrency}`, `file-by-file{stopOnFirstError}`,
exactly as constructed and matched in the strategy controller and fallback
executor. -/
inductive ExecutionStrategy where
  | allAtOnce (parallel : Bool)
  | batch (batchSize : Nat) (parallel : Bool)
  | directoryByDirectory (maxConcurrency : Nat)
  | fileByFile (stopOnFirstError : Bool)
deriving DecidableEq

/-- `context.executionStrategy.type === 'all-at-once'`. -/
def ExecutionStrategy.isAllAtOnce : ExecutionStrategy → Bool
  | .allAtOnce _ => true
  | _ => false

/-- `ExecutionTarget` from `src/src/domains/test-execution/types.ts`
(lines 14-18); the smart-constructor path classes (`DirectoryPath`,
`FilePath`, `TestName`, `PackageImportPath`) are represented by their
`getValue()` strings. -/
inductive ExecutionTarget where
  | allPackages (pattern : String)
  | directory (path : String) (recursive : Bool)
  | file (path : String) (testName : Option String)
  | packageTarget (importPath : String)
deriving DecidableEq

/-- `FallbackTrigger`: variants `all-tests-failed{totalPackages}`,
`error-threshold-exceeded{errorRate, threshold}`,
`timeout-exceeded{duration, limit}`, `first-error-detected{target}`,
as constructed in the strategy controller and matched in the fallback
executor.  The float `errorRate`/`threshold` fields are exact rationals. -/
inductive FallbackTrigger where
  | allTestsFailed (totalPackages : Nat)
  | errorThresholdExceeded (errorRate : Rat) (threshold : Rat)
  | timeoutExceeded (duration : Nat) (limit : Nat)
  | firstErrorDetected (target : ExecutionTarget)
deriving DecidableEq

/-- `ErrorRecord` as built by `StrategyController.createErrorRecord`. -/
structure ErrorRecord where
  timestamp : Nat
  target : ExecutionTarget
  exitCode : Int
  errorType : String
  message : Option String
deriving DecidableEq

/-- `ErrorContext` as read by `StrategyController.makeDecision` /
`checkFallbackConditions` (fields `executionStrategy`, `targetsExecuted`,
`targetsFailed`, `totalTargets`, `duration`) plus the append-only
`errorHistory` log. -/
structure ErrorContext where
  executionStrategy : ExecutionStrategy
  targetsExecuted : Nat
  targetsFailed : Nat
  totalTargets : Nat
  duration : Nat
  errorHistory : List ErrorRecord
deriving DecidableEq

/-- `FallbackTriggerConfig` as used in `createDefaultFallbackConfig`:
`any-failure`, `error-rate{threshold}`, `timeout{duration}`. -/
inductive FallbackTriggerConfig where
  | anyFailure
  | errorRate (threshold : Rat)
  | timeoutTrigger (duration : Nat)
deriving DecidableEq

/-- `FallbackAction` as used in `createDefaultFallbackConfig`. -/
inductive FallbackAction where
  | switchStrategy (strategy : ExecutionStrategy)
  | reduceConcurrency (factor : Rat)
  | stopExecution
deriving DecidableEq

/-- One entry of `FallbackConfig.strategies`. -/
structure FallbackStrategyConfig where
  trigger : FallbackTriggerConfig
  action : FallbackAction
deriving DecidableEq

/-- `FallbackConfig`: `enabled`, `maxRetries`, `strategies` (the
`strategies` list is never read by the modelled operations). -/
structure FallbackConfig where
  enabled : Bool
  maxRetries : Nat
  strategies : List FallbackStrategyConfig
deriving DecidableEq

/-- `StrategyDecision`: `{action:'continue'; reason}`,
`{action:'stop'; reason; exitCode}`,
`{action:'fallback'; newStrategy; trigger}`. -/
inductive StrategyDecision where
  | continueExecution (reason : String)
  | stop (reason : String) (exitCode : Int)
  | fallback (newStrategy : ExecutionStrategy) (trigger : FallbackTrigger)
deriving DecidableEq

/-- `ResourceConstraints` as read by `selectInitialStrategy`
(only `maxConcurrency` is consulted). -/
structure ResourceConstraints where
  maxConcurrency : Nat
deriving DecidableEq

/-- `StrategySelectionCriteria` as read by
`StrategyController.selectInitialStrategy` (the source field for the time
bound is named `timeConstraints`, in seconds). -/
structure StrategySelectionCriteria where
  totalPackages : Nat
  hasComplexDependencies : Bool
  timeConstraints : Nat
  resourceConstraints : Option ResourceConstraints
deriving DecidableEq

/-- `!criteria.resourceConstraints || criteria.resourceConstraints.maxConcurrency >= 4`:
an absent constraint object is falsy, a present one always truthy. -/
def hasGoodResources : Option ResourceConstraints → Bool
  | none => true
  | some rc => decide (4 ≤ rc.maxConcurrency)

/-- JavaScript `x || d` applied to `criteria.resourceConstraints?.maxConcurrency`:
both `undefined` (absent constraints) and `0` are falsy and yield the
default `d`.  This is the source's `|| 5`, not the nullish `?? 5`. -/
def jsNumOrDefault (x : Option Nat) (d : Nat) : Nat :=
  match x with
  | none => d
  | some n => if n = 0 then d else n

/-- `StrategyController.selectInitialStrategy` (strategy-controller.ts,
lines 26-54), rule for rule in source order. -/
def selectInitialStrategy (criteria : StrategySelectionCriteria) : ExecutionStrategy :=
  if criteria.totalPackages ≤ 10 ∨ criteria.timeConstraints < 60 then
    .allAtOnce false
  else if criteria.totalPackages ≤ 50 ∧ hasGoodResources criteria.resourceConstraints = true then
    .batch 10 true
  else if 50 < criteria.totalPackages ∨ criteria.hasComplexDependencies = true then
    .directoryByDirectory
      (jsNumOrDefault (criteria.resourceConstraints.map ResourceConstraints.maxConcurrency) 5)
  else
    .fileByFile true

/-- `StrategyController.determineNextStrategy` (strategy-controller.ts,
lines 187-208): the degradation ladder.  `Math.max(1, Math.floor(batchSize / 2))`
is `max 1 (batchSize / 2)` on `Nat`. -/
def determineNextStrategy : ExecutionStrategy → Option ExecutionStrategy
  | .allAtOnce _ => some (.directoryByDirectory 5)
  | .batch batchSize _ => some (.batch (max 1 (batchSize / 2)) false)
  | .directoryByDirectory _ => some (.fileByFile true)
  | .fileByFile _ => none

/-- JavaScript `targetsFailed / targetsExecuted === 1` on floats:
`0/0` is `NaN` and `f/0` with `f > 0` is `Infinity`, neither of which equals
`1`, so the test holds exactly when the counts are equal and non-zero
(arithmetic taken exact, as for every realistic target count). -/
def jsDivEqOne (f e : Nat) : Bool :=
  decide (e ≠ 0 ∧ f = e)

/-- JavaScript `targetsFailed / targetsExecuted > 0.5` on floats:
`NaN > 0.5` is false, `Infinity > 0.5` is true, and for `e > 0` the exact
comparison is `2 * f > e`. -/
def jsDivGtHalf (f e : Nat) : Bool :=
  if e = 0 then decide (f ≠ 0) else decide (e < 2 * f)

/-- `StrategyController.checkFallbackConditions` (strategy-controller.ts,
lines 140-182).  The `errorRate` carried by the threshold trigger is the
exact quotient; that branch is only reachable with `targetsExecuted ≥ 3`,
where the quotient is an ordinary rational. -/
def checkFallbackConditions (context : ErrorContext) (config : FallbackConfig) :
    Option StrategyDecision :=
  if config.enabled = false then none
  else if jsDivEqOne context.targetsFailed context.targetsExecuted = true ∧
      context.executionStrategy.isAllAtOnce = true then
    some (.fallback (.directoryByDirectory 5) (.allTestsFailed context.totalTargets))
  else if jsDivGtHalf context.targetsFailed context.targetsExecuted = true ∧
      3 ≤ context.targetsExecuted then
    match determineNextStrategy context.executionStrategy with
    | some newStrategy =>
        some (.fallback newStrategy
          (.errorThresholdExceeded
            ((context.targetsFailed : Rat) / (context.targetsExecuted : Rat)) (1 / 2)))
    | none => none
  else none

/-- The reason string of the final catch-all branch of `makeDecision`:
`Unknown error: exit code ${classification.code}`. -/
def unknownErrorReason (code : Int) : String :=
  s!"Unknown error: exit code {code}"

/-- `StrategyController.makeDecision` (strategy-controller.ts, lines 59-135),
branch for branch.  The source's trailing `return` covers every
classification that is not `success`/`build-error`/`timeout`/`test-failure`,
i.e. exactly `killed` and `unknown`. -/
def makeDecision (classification : ExitCodeClassification) (context : ErrorContext)
    (config : FallbackConfig) : Result StrategyDecision Empty :=
  match classification with
  | .success => .success (.continueExecution "Tests passed successfully")
  | .buildError => .success (.stop "Build error detected" 2)
  | .timeout =>
      if config.enabled = true ∧ context.executionStrategy.isAllAtOnce = true then
        .success (.fallback (.directoryByDirectory 3)
          (.timeoutExceeded context.duration 0))
      else
        .success (.stop "Timeout exceeded" 124)
  | .testFailure =>
      match checkFallbackConditions context config with
      | some decision => .success decision
      | none =>
          match context.executionStrategy with
          | .fileByFile true =>
              .success (.stop "First error detected in file-by-file mode" 1)
          | _ => .success (.continueExecution "Test failure detected, continuing execution")
  | .killed code _ => .success (.stop (unknownErrorReason code) code)
  | .unknown code => .success (.stop (unknownErrorReason code) code)

/-! ## Fallback Coordinator (`src/src/domains/error-control/fallback-executor.ts`)

The class's single private mutable field `state: FallbackState | null` is
made explicit: each method takes the current `Option FallbackState` and the
stateful ones return the new one.  The optional `eventBus.emit` performed on
a granted fallback writes no coordinator state and is therefore not part of
the state transition; the strings it would carry are still modelled
(`strategyToString`). -/

/-- `FallbackState` (fallback-executor.ts, lines 15-21); `Date.now()`
timestamps become `Nat`. -/
structure FallbackState where
  originalStrategy : ExecutionStrategy
  currentStrategy : ExecutionStrategy
  fallbackCount : Nat
  triggers : List FallbackTrigger
  startTime : Nat
deriving DecidableEq

/-- `FallbackResult` (fallback-executor.ts, lines 26-30). -/
structure FallbackResult where
  executed : Bool
  newStrategy : Option ExecutionStrategy
  reason : String
deriving DecidableEq

/-- `FallbackExecutor.initialize` (lines 46-54): fresh state with
`fallbackCount` 0, empty `triggers`, `currentStrategy = originalStrategy`;
`Date.now()` is the `startTime` argument. -/
def initFallbackState (originalStrategy : ExecutionStrategy) (startTime : Nat) :
    FallbackState :=
  { originalStrategy := originalStrategy
    currentStrategy := originalStrategy
    fallbackCount := 0
    triggers := []
    startTime := startTime }

/-- `FallbackExecutor.reset` (lines 114-116): `this.state = null`. -/
def resetState : Option FallbackState := none

/-- `toFixed(1)` on the exact rational values that reach it (non-negative
error rates): one decimal digit, rounding to nearest. -/
def toFixed1 (q : Rat) : String :=
  let scaled : Int := round (q * 10)
  let whole : Int := scaled / 10
  let tenth : Nat := (scaled % 10).natAbs
  s!"{whole}.{tenth}"

/-- `FallbackExecutor.targetToString` (lines 173-184). -/
def targetToString : ExecutionTarget → String
  | .allPackages pattern => s!"pattern {pattern}"
  | .directory path _ => s!"directory {path}"
  | .file path _ => s!"file {path}"
  | .packageTarget importPath => s!"package {importPath}"

/-- `FallbackExecutor.strategyToString` (lines 139-150). -/
def strategyToString : ExecutionStrategy → String
  | .allAtOnce parallel => s!"all-at-once (parallel: {parallel})"
  | .directoryByDirectory maxConcurrency =>
      s!"directory-by-directory (concurrency: {maxConcurrency})"
  | .fileByFile stopOnFirstError => s!"file-by-file (stop on error: {stopOnFirstError})"
  | .batch batchSize parallel => s!"batch (size: {batchSize}, parallel: {parallel})"

/-- `FallbackExecutor.getTriggerReason` (lines 155-168). -/
def getTriggerReason : FallbackTrigger → String
  | .allTestsFailed totalPackages =>
      s!"All {totalPackages} packages failed in initial execution"
  | .errorThresholdExceeded errorRate threshold =>
      let r := toFixed1 (errorRate * 100)
      let t := toFixed1 (threshold * 100)
      s!"Error rate {r}% exceeded threshold of {t}%"
  | .timeoutExceeded duration limit =>
      s!"Execution time {duration}ms exceeded limit of {limit}ms"
  | .firstErrorDetected target =>
      s!"First error detected in {targetToString target}"

/-- The denied reason string
`` `Maximum fallback retries (${this.config.maxRetries}) exceeded` ``. -/
def maxRetriesExceededReason (maxRetries : Nat) : String :=
  s!"Maximum fallback retries ({maxRetries}) exceeded"

/-- `FallbackExecutor.executeFallback` (lines 59-102): uninitialized state
and exhausted retries are denials without mutation; otherwise the state is
replaced by a copy with the new strategy, incremented count and appended
trigger.  The `_context` parameter is unused, as in the source. -/
def executeFallback (config : FallbackConfig) (state : Option FallbackState)
    (trigger : FallbackTrigger) (_context : ErrorContext)
    (newStrategy : ExecutionStrategy) :
    Result FallbackResult Empty × Option FallbackState :=
  match state with
  | none =>
      (.success { executed := false, newStrategy := none
                  reason := "Fallback executor not initialized" }, none)
  | some st =>
      if config.maxRetries ≤ st.fallbackCount then
        (.success { executed := false, newStrategy := none
                    reason := maxRetriesExceededReason config.maxRetries }, some st)
      else
        let st2 : FallbackState :=
          { st with
            currentStrategy := newStrategy
            fallbackCount := st.fallbackCount + 1
            triggers := st.triggers ++ [trigger] }
        (.success { executed := true, newStrategy := some newStrategy
                    reason := getTriggerReason trigger }, some st2)

/-- `FallbackExecutor.canFallback` (lines 121-127). -/
def canFallback (config : FallbackConfig) (state : Option FallbackState) : Bool :=
  match state with
  | none => false
  | some st => config.enabled && decide (st.fallbackCount < config.maxRetries)

/-- `FallbackExecutor.getFallbackHistory` (lines 132-134):
`this.state?.triggers || []` (an array is always truthy). -/
def getFallbackHistory (state : Option FallbackState) : List FallbackTrigger :=
  match state with
  | none => []
  | some st => st.triggers

/-- One `executeFallback` call's arguments. -/
structure FallbackRequest where
  trigger : FallbackTrigger
  context : ErrorContext
  newStrategy : ExecutionStrategy

/-- A sequence of `executeFallback` calls against one coordinator instance:
the final state together with the results in call order. -/
def runFallbacks (config : FallbackConfig) :
    Option FallbackState → List FallbackRequest →
      Option FallbackState × List FallbackResult
  | s, [] => (s, [])
  | s, r :: rs =>
      let step := executeFallback config s r.trigger r.context r.newStrategy
      let res : FallbackResult :=
        match step.1 with
        | .success x => x
        | .failure e => e.elim
      let rest := runFallbacks config step.2 rs
      (rest.1, res :: rest.2)

/-- Number of granted (`executed: true`) results. -/
def countGranted (results : List FallbackResult) : Nat :=
  results.countP fun r => r.executed

/-- The spec invariant on the coordinator state:
`fallbackCount ≤ maxRetries` and `triggers.length == fallbackCount`
(trivially true for the uninitialized/reset `null` state). -/
def fallbackInvariant (config : FallbackConfig) : Option FallbackState → Prop
  | none => True
  | some st => st.fallbackCount ≤ config.maxRetries ∧ st.triggers.length = st.fallbackCount

/-! ## Concurrent Batch Runner
(`src/src/domains/test-execution/test-executor.ts`,
`src/src/domains/test-execution/parallel-executor.ts`)

The per-target execution (`this.execute` / `this.executor.test`, which
spawns a process through the injected `ProcessExecutor`) is the injected
capability of the spec and is passed in as a function argument.  Promises
are modelled by their resolved values: `Promise.all` over a batch resolves
to the batch's results in array order, and one group's loop body runs to
completion before the next group starts (the join barrier). -/

/-- `DomainError` (`src/src/shared/errors.ts`): a `domain`/`kind`
discriminated record; the untyped `details: unknown` payload is not
modelled. -/
structure DomainError where
  domain : String
  kind : String
deriving DecidableEq

/-- `TestResult` from test-execution `types.ts`. -/
structure TestResult where
  name : String
  passed : Bool
  duration : Option Nat
  output : Option String
deriving DecidableEq

/-- `TestPackageResult` from test-execution `types.ts`. -/
structure TestPackageResult where
  name : String
  tests : List TestResult
  passed : Option Bool
  duration : Option Nat
deriving DecidableEq

/-- `TestExecutionResult` from test-execution `types.ts` (lines 50-59). -/
structure TestExecutionResult where
  target : ExecutionTarget
  processResult : ProcessResult
  startTime : Nat
  endTime : Nat
  success : Bool
  status : String
  duration : Nat
  packages : List TestPackageResult
deriving DecidableEq

/-- The aggregate failure built by `TestExecutor.executeParallel`
(test-executor.ts, lines 280-286):
`createDomainError({domain:'execution', kind:'ProcessSpawnFailed',
details:{errors, message:'Multiple execution failures'}})`, with the
`details` record's two fields lifted into the structure. -/
structure ParallelExecutionError where
  domain : String
  kind : String
  errors : List DomainError
  message : String
deriving DecidableEq

/-- The batching loop `for (let i = 0; i < targets.length; i += maxConcurrency)
{ const batch = targets.slice(i, i + maxConcurrency); ... }` as the list of
consecutive `slice`s.  For `k ≥ 1` each step takes `k` elements and recurses
on the rest; the `k = 0` case (where the source loop would never advance) is
cut off to keep the function total, and every theorem below assumes
`0 < k`. -/
def chunkList (k : Nat) : List α → List (List α)
  | [] => []
  | x :: xs => (x :: xs).take k :: chunkList k (xs.drop (k - 1))
termination_by l => l.length
decreasing_by simp; omega

/-- The per-batch collection loop of `TestExecutor.executeParallel`
(lines 271-277): walk the awaited batch results in order, appending `ok`
data to `results` and errors to `errors`. -/
def processBatchResults
    (acc : List TestExecutionResult × List DomainError)
    (batchResults : List (Result TestExecutionResult DomainError)) :
    List TestExecutionResult × List DomainError :=
  batchResults.foldl
    (fun acc2 result =>
      match result with
      | .success d => (acc2.1 ++ [d], acc2.2)
      | .failure e => (acc2.1, acc2.2 ++ [e]))
    acc

/-- The accumulated `(results, errors)` pair of
`TestExecutor.executeParallel` after all groups ran: groups taken strictly
in sequence, each group's promises awaited together (`Promise.all`) and
collected in array order. -/
def collectParallel (exec : ExecutionTarget → Result TestExecutionResult DomainError)
    (targets : List ExecutionTarget) (maxConcurrency : Nat) :
    List TestExecutionResult × List DomainError :=
  (chunkList maxConcurrency targets).foldl
    (fun acc batch => processBatchResults acc (batch.map exec))
    ([], [])

/-- `TestExecutor.executeParallel` (test-executor.ts, lines 255-289):
errors present after all groups ran yield one aggregate failure carrying
the whole error list; otherwise all results are returned. -/
def executeParallelTE (exec : ExecutionTarget → Result TestExecutionResult DomainError)
    (targets : List ExecutionTarget) (maxConcurrency : Nat) :
    Result (List TestExecutionResult) ParallelExecutionError :=
  let acc := collectParallel exec targets maxConcurrency
  if 0 < acc.2.length then
    .failure { domain := "execution", kind := "ProcessSpawnFailed"
               errors := acc.2, message := "Multiple execution failures" }
  else
    .success acc.1

/-- The per-target success view of the injected executor. -/
def okOf (exec : ExecutionTarget → Result TestExecutionResult DomainError)
    (t : ExecutionTarget) : Option TestExecutionResult :=
  match exec t with
  | .success d => some d
  | .failure _ => none

/-- The per-target failure view of the injected executor. -/
def errOf (exec : ExecutionTarget → Result TestExecutionResult DomainError)
    (t : ExecutionTarget) : Option DomainError :=
  match exec t with
  | .success _ => none
  | .failure e => some e

/-- `ParallelConfig` (parallel-executor.ts, lines 15-19). -/
structure ParallelConfig where
  maxConcurrency : Nat
  batchSize : Nat
  failFast : Bool
deriving DecidableEq

/-- One element of the result array of `ParallelTestExecutor`: either a
`TestExecutionResult` pushed from a successful `executor.test`, or the
synthetic failed record pushed in `executeBatch` (lines 164-172):
`{target: pkg, success: false, exitCode: 1, duration: 0, stdout: '',
stderr, packages: [pkg]}` (the source pushes both shapes into one array). -/
inductive BatchEntry where
  | executed (r : TestExecutionResult)
  | execFailed (target : String) (success : Bool) (exitCode : Int) (duration : Nat)
      (stdout : String) (stderr : String) (packages : List String)
deriving DecidableEq

/-- The `success` flag of a result-array element. -/
def BatchEntry.entrySuccess : BatchEntry → Bool
  | .executed r => r.success
  | .execFailed _ success _ _ _ _ _ => success

/-- The entry `executeBatch` produces for one package under
`failFast: false`: the test result on success, otherwise the synthetic
failed record with
`` stderr: `Test execution failed: ${result.error.kind}` ``. -/
def entryFor (test : String → Result TestExecutionResult DomainError)
    (pkg : String) : BatchEntry :=
  match test pkg with
  | .success d => .executed d
  | .failure e =>
      let k := e.kind
      .execFailed pkg false 1 0 "" (s!"Test execution failed: {k}") [pkg]

/-- `ParallelTestExecutor.executeBatch` (parallel-executor.ts,
lines 145-177): packages of one batch run sequentially; a per-package
failure returns immediately under `failFast`, and otherwise becomes the
synthetic failed entry and execution continues. -/
def executeBatch (cfg : ParallelConfig)
    (test : String → Result TestExecutionResult DomainError) :
    List String → Result (List BatchEntry) DomainError
  | [] => .success []
  | pkg :: rest =>
      match test pkg with
      | .success d =>
          match executeBatch cfg test rest with
          | .success entries => .success (.executed d :: entries)
          | .failure e => .failure e
      | .failure e =>
          if cfg.failFast then .failure e
          else
            match executeBatch cfg test rest with
            | .success entries => .success (entryFor test pkg :: entries)
            | .failure e2 => .failure e2

/-- `a.split('/').length`, the path-depth sort key of `createBatches`. -/
def pathDepth (s : String) : Nat :=
  (s.splitOn "/").length

/-- `ParallelTestExecutor.createBatches` (parallel-executor.ts,
lines 61-81): stable sort by ascending path depth
(comparator `depthA - depthB`), then consecutive slices of `batchSize`
(the unread `priority` field, the slice index, is dropped). -/
def createBatches (batchSize : Nat) (packages : List String) : List (List String) :=
  chunkList batchSize
    (packages.mergeSort fun a b => decide (pathDepth a ≤ pathDepth b))

/-- The batch loop of `ParallelTestExecutor.executeBatches`
(parallel-executor.ts, lines 86-140), with completions taken in issue
order: successful batches extend `results`, failed ones abort under
`failFast` and otherwise extend `errors`; at the end,
`errors.length > 0 && results.length === 0` yields `failure(errors[0])`
and anything else `success(results)`. -/
def executeBatchesGo (cfg : ParallelConfig)
    (test : String → Result TestExecutionResult DomainError) :
    List (List String) → List BatchEntry → List DomainError →
      Result (List BatchEntry) DomainError
  | [], results, errors =>
      match errors, results with
      | e :: _, [] => .failure e
      | _, _ => .success results
  | b :: bs, results, errors =>
      match executeBatch cfg test b with
      | .success entries => executeBatchesGo cfg test bs (results ++ entries) errors
      | .failure e =>
          if cfg.failFast then .failure e
          else executeBatchesGo cfg test bs results (errors ++ [e])

/-- `ParallelTestExecutor.executeParallel` (parallel-executor.ts,
lines 41-56): empty input short-circuits to `success([])`, otherwise the
created batches are executed. -/
def executeParallelPTE (cfg : ParallelConfig)
    (test : String → Result TestExecutionResult DomainError)
    (packages : List String) : Result (List BatchEntry) DomainError :=
  if packages = [] then .success []
  else executeBatchesGo cfg test (createBatches cfg.batchSize packages) [] []

/-- The `result.ok` success projection of a per-target `Result`. -/
def resOk : Result TestExecutionResult DomainError → Option TestExecutionResult
  | .success d => some d
  | .failure _ => none

/-- The `result.ok === false` error projection of a per-target `Result`. -/
def resErr : Result TestExecutionResult DomainError → Option DomainError
  | .success _ => none
  | .failure e => some e

/-! ## Concrete sample inputs used by the witnesses and counterexamples -/

/-- A context of an all-at-once round in which all 4 of 4 targets failed
(the spec's §8 scenario). -/
def allFailedContext : ErrorContext :=
  { executionStrategy := .allAtOnce false
    targetsExecuted := 4
    targetsFailed := 4
    totalTargets := 4
    duration := 0
    errorHistory := [] }

/-- A fallback configuration with fallback turned off. -/
def disabledConfig : FallbackConfig :=
  { enabled := false, maxRetries := 3, strategies := [] }

/-- A fallback configuration with fallback turned on. -/
def enabledConfig : FallbackConfig :=
  { enabled := true, maxRetries := 3, strategies := [] }

/-- A fallback configuration allowing a single retry. -/
def singleRetryConfig : FallbackConfig :=
  { enabled := true, maxRetries := 1, strategies := [] }

/-- A fallback request as the strategy controller would emit on an
all-failed round. -/
def sampleRequest : FallbackRequest :=
  { trigger := .allTestsFailed 4
    context := allFailedContext
    newStrategy := .directoryByDirectory 5 }

/-- Selection criteria with an explicit `maxConcurrency` of `0`. -/
def zeroConcurrencyCriteria : StrategySelectionCriteria :=
  { totalPackages := 60
    hasComplexDependencies := false
    timeConstraints := 300
    resourceConstraints := some { maxConcurrency := 0 } }

/-- A per-target executor whose every execution fails to spawn. -/
def failingExec : ExecutionTarget → Result TestExecutionResult DomainError :=
  fun _ => .failure { domain := "execution", kind := "ProcessSpawnFailed" }

/-- A per-package test runner whose every execution fails. -/
def failingTest : String → Result TestExecutionResult DomainError :=
  fun _ => .failure { domain := "execution", kind := "ProcessSpawnFailed" }

/-- A parallel configuration with `failFast: false`. -/
def noFailFastConfig : ParallelConfig :=
  { maxConcurrency := 2, batchSize := 1, failFast := false }

/-! ## Helper lemmas -/

theorem chunkList_join {α : Type _} {k : Nat} (hk : 0 < k) (l : List α) :
    (chunkList k l).flatten = l := by
  have main : ∀ (n : Nat) (l : List α), l.length ≤ n → (chunkList k l).flatten = l := by
    intro n
    induction n with
    | zero =>
        intro l hl
        have hnil : l = [] := List.eq_nil_of_length_eq_zero (Nat.le_zero.mp hl)
        subst hnil
        simp [chunkList]
    | succ n ih =>
        intro l hl
        cases l with
        | nil => simp [chunkList]
        | cons x xs =>
            obtain ⟨m, rfl⟩ : ∃ m, k = m + 1 := ⟨k - 1, by omega⟩
            rw [chunkList, List.flatten_cons, ih]
            · simp [List.take_succ_cons]
            · simp at hl ⊢
              omega
  exact main l.length l le_rfl

theorem chunkList_mem_length {α : Type _} {k : Nat} (hk : 0 < k) (l : List α) :
    ∀ c ∈ chunkList k l, 0 < c.length ∧ c.length ≤ k := by
  have main : ∀ (n : Nat) (l : List α), l.length ≤ n →
      ∀ c ∈ chunkList k l, 0 < c.length ∧ c.length ≤ k := by
    intro n
    induction n with
    | zero =>
        intro l hl
        have hnil : l = [] := List.eq_nil_of_length_eq_zero (Nat.le_zero.mp hl)
        subst hnil
        simp [chunkList]
    | succ n ih =>
        intro l hl c hc
        cases l with
        | nil => simp [chunkList] at hc
        | cons x xs =>
            rw [chunkList] at hc
            rcases List.mem_cons.mp hc with h | h
            · subst h
              simp [List.length_take]
              omega
            · refine ih (xs.drop (k - 1)) ?_ c h
              simp at hl ⊢
              omega
  exact main l.length l le_rfl

theorem chunkList_dropLast_length {α : Type _} {k : Nat} (hk : 0 < k) (l : List α) :
    ∀ c ∈ (chunkList k l).dropLast, c.length = k := by
  have hne : ∀ m : List α, m ≠ [] → chunkList k m ≠ [] := by
    intro m hm
    cases m with
    | nil => exact absurd rfl hm
    | cons y ys => rw [chunkList]; exact List.cons_ne_nil _ _
  have main : ∀ (n : Nat) (l : List α), l.length ≤ n →
      ∀ c ∈ (chunkList k l).dropLast, c.length = k := by
    intro n
    induction n with
    | zero =>
        intro l hl
        have hnil : l = [] := List.eq_nil_of_length_eq_zero (Nat.le_zero.mp hl)
        subst hnil
        simp [chunkList]
    | succ n ih =>
        intro l hl c hc
        cases l with
        | nil => simp [chunkList] at hc
        | cons x xs =>
            rw [chunkList] at hc
            by_cases hrest : chunkList k (xs.drop (k - 1)) = []
            · rw [hrest] at hc
              simp at hc
            · rw [List.dropLast_cons_of_ne_nil hrest] at hc
              rcases List.mem_cons.mp hc with h | h
              · subst h
                have hdrop : xs.drop (k - 1) ≠ [] := by
                  intro hd
                  exact hrest (by rw [hd]; simp [chunkList])
                have hlen : k - 1 < xs.length := by
                  by_contra hle
                  exact hdrop (List.drop_eq_nil_of_le (by omega))
                simp [List.length_take]
                omega
              · refine ih (xs.drop (k - 1)) ?_ c h
                simp at hl ⊢
                omega
  exact main l.length l le_rfl

theorem processBatchResults_spec (acc : List TestExecutionResult × List DomainError)
    (l : List (Result TestExecutionResult DomainError)) :
    processBatchResults acc l = (acc.1 ++ l.filterMap resOk, acc.2 ++ l.filterMap resErr) := by
  induction l generalizing acc with
  | nil => simp [processBatchResults]
  | cons r l ih =>
      cases r with
      | success d =>
          have hstep : processBatchResults acc (Result.success d :: l)
              = processBatchResults (acc.1 ++ [d], acc.2) l := rfl
          rw [hstep, ih]
          simp [resOk, resErr]
      | failure e =>
          have hstep : processBatchResults acc (Result.failure e :: l)
              = processBatchResults (acc.1, acc.2 ++ [e]) l := rfl
          rw [hstep, ih]
          simp [resOk, resErr]

theorem okOf_eq (exec : ExecutionTarget → Result TestExecutionResult DomainError)
    (t : ExecutionTarget) : okOf exec t = resOk (exec t) := by
  cases h : exec t <;> simp [okOf, resOk, h]

theorem errOf_eq (exec : ExecutionTarget → Result TestExecutionResult DomainError)
    (t : ExecutionTarget) : errOf exec t = resErr (exec t) := by
  cases h : exec t <;> simp [errOf, resErr, h]

theorem collectParallel_spec
    (exec : ExecutionTarget → Result TestExecutionResult DomainError)
    (targets : List ExecutionTarget) {k : Nat} (hk : 0 < k) :
    collectParallel exec targets k =
      (targets.filterMap (okOf exec), targets.filterMap (errOf exec)) := by
  have fold : ∀ (chunks : List (List ExecutionTarget))
      (acc : List TestExecutionResult × List DomainError),
      chunks.foldl (fun acc batch => processBatchResults acc (batch.map exec)) acc =
        (acc.1 ++ chunks.flatten.filterMap (okOf exec),
         acc.2 ++ chunks.flatten.filterMap (errOf exec)) := by
    intro chunks
    induction chunks with
    | nil => intro acc; simp
    | cons b bs ih =>
        intro acc
        rw [List.foldl_cons, ih, processBatchResults_spec]
        have hok : ∀ m : List ExecutionTarget,
            (m.map exec).filterMap resOk = m.filterMap (okOf exec) := by
          intro m
          rw [List.filterMap_map]
          exact List.filterMap_congr fun t _ => (okOf_eq exec t).symm
        have herr : ∀ m : List ExecutionTarget,
            (m.map exec).filterMap resErr = m.filterMap (errOf exec) := by
          intro m
          rw [List.filterMap_map]
          exact List.filterMap_congr fun t _ => (errOf_eq exec t).symm
        simp [hok, herr]
  rw [collectParallel, fold, chunkList_join hk]
  simp

theorem filterMap_length_of_forall_isSome {α β : Type _} {f : α → Option β} :
    ∀ l : List α, (∀ a ∈ l, (f a).isSome = true) → (l.filterMap f).length = l.length := by
  intro l
  induction l with
  | nil => intro _; simp
  | cons x xs ih =>
      intro h
      have hx := h x (List.mem_cons_self x xs)
      obtain ⟨b, hb⟩ := Option.isSome_iff_exists.mp hx
      rw [List.filterMap_cons, hb]
      simp only [List.length_cons]
      rw [ih fun a ha => h a (List.mem_cons_of_mem x ha)]

theorem executeBatch_noFailFast (cfg : ParallelConfig) (hff : cfg.failFast = false)
    (test : String → Result TestExecutionResult DomainError) (ps : List String) :
    executeBatch cfg test ps = .success (ps.map (entryFor test)) := by
  induction ps with
  | nil => simp [executeBatch]
  | cons pkg rest ih =>
      cases h : test pkg with
      | success d => simp [executeBatch, h, ih, entryFor]
      | failure e => simp [executeBatch, h, hff, ih]

theorem executeBatchesGo_noFailFast (cfg : ParallelConfig) (hff : cfg.failFast = false)
    (test : String → Result TestExecutionResult DomainError)
    (bs : List (List String)) (acc : List BatchEntry) :
    executeBatchesGo cfg test bs acc [] = .success (acc ++ bs.flatten.map (entryFor test)) := by
  induction bs generalizing acc with
  | nil => simp [executeBatchesGo]
  | cons b bs ih =>
      have hstep : executeBatchesGo cfg test (b :: bs) acc []
          = match executeBatch cfg test b with
            | .success entries => executeBatchesGo cfg test bs (acc ++ entries) []
            | .failure e =>
                if cfg.failFast then .failure e
                else executeBatchesGo cfg test bs acc ([] ++ [e]) := rfl
      rw [hstep, executeBatch_noFailFast cfg hff]
      rw [show (match Result.success (b.map (entryFor test)) with
            | Result.success entries => executeBatchesGo cfg test bs (acc ++ entries) []
            | Result.failure e =>
                if cfg.failFast then Result.failure e
                else executeBatchesGo cfg test bs acc ([] ++ [e]))
          = executeBatchesGo cfg test bs (acc ++ b.map (entryFor test)) [] from rfl]
      rw [ih]
      simp

theorem executeParallelPTE_noFailFast (cfg : ParallelConfig) (hff : cfg.failFast = false)
    (hbs : 0 < cfg.batchSize)
    (test : String → Result TestExecutionResult DomainError) (pkgs : List String) :
    executeParallelPTE cfg test pkgs =
      .success ((pkgs.mergeSort fun a b => decide (pathDepth a ≤ pathDepth b)).map
        (entryFor test)) := by
  by_cases hp : pkgs = []
  · subst hp
    simp [executeParallelPTE, List.mergeSort_nil]
  · rw [executeParallelPTE, if_neg hp, executeBatchesGo_noFailFast cfg hff, createBatches,
      chunkList_join hbs]
    simp

theorem executeFallback_denied (config : FallbackConfig) (st : FallbackState)
    (h : config.maxRetries ≤ st.fallbackCount) (tr : FallbackTrigger)
    (ctx : ErrorContext) (ns : ExecutionStrategy) :
    executeFallback config (some st) tr ctx ns
      = (.success { executed := false, newStrategy := none
                    reason := maxRetriesExceededReason config.maxRetries }, some st) := by
  simp [executeFallback, h]

theorem executeFallback_granted (config : FallbackConfig) (st : FallbackState)
    (h : st.fallbackCount < config.maxRetries) (tr : FallbackTrigger)
    (ctx : ErrorContext) (ns : ExecutionStrategy) :
    executeFallback config (some st) tr ctx ns
      = (.success { executed := true, newStrategy := some ns
                    reason := getTriggerReason tr },
         some { st with
                currentStrategy := ns
                fallbackCount := st.fallbackCount + 1
                triggers := st.triggers ++ [tr] }) := by
  simp [executeFallback, Nat.not_le.mpr h]

theorem runFallbacks_cons (config : FallbackConfig) (s : Option FallbackState)
    (r : FallbackRequest) (rs : List FallbackRequest) :
    runFallbacks config s (r :: rs)
      = ((runFallbacks config
            (executeFallback config s r.trigger r.context r.newStrategy).2 rs).1,
         (match (executeFallback config s r.trigger r.context r.newStrategy).1 with
          | .success x => x
          | .failure e => e.elim)
           :: (runFallbacks config
                (executeFallback config s r.trigger r.context r.newStrategy).2 rs).2) := rfl

theorem runFallbacks_count (config : FallbackConfig) (rs : List FallbackRequest)
    (st : FallbackState) :
    ∃ stF : FallbackState,
      (runFallbacks config (some st) rs).1 = some stF ∧
      stF.fallbackCount
        = st.fallbackCount + countGranted (runFallbacks config (some st) rs).2 := by
  induction rs generalizing st with
  | nil => exact ⟨st, rfl, by simp [runFallbacks, countGranted]⟩
  | cons r rs ih =>
      by_cases hle : config.maxRetries ≤ st.fallbackCount
      · obtain ⟨stF, h1, h2⟩ := ih st
        refine ⟨stF, ?_, ?_⟩
        · rw [runFallbacks_cons, executeFallback_denied config st hle]
          exact h1
        · rw [runFallbacks_cons, executeFallback_denied config st hle]
          simp only [countGranted, List.countP_cons]
          rw [show countGranted (runFallbacks config (some st) rs).2
              = (runFallbacks config (some st) rs).2.countP (fun r => r.executed) from rfl] at h2
          simp [h2]
      · have hlt := Nat.not_le.mp hle
        obtain ⟨stF, h1, h2⟩ := ih
          { st with
            currentStrategy := r.newStrategy
            fallbackCount := st.fallbackCount + 1
            triggers := st.triggers ++ [r.trigger] }
        refine ⟨stF, ?_, ?_⟩
        · rw [runFallbacks_cons, executeFallback_granted config st hlt]
          exact h1
        · rw [runFallbacks_cons, executeFallback_granted config st hlt]
          simp only [countGranted, List.countP_cons] at h2 ⊢
          simp at h2 ⊢
          omega

theorem runFallbacks_denied (config : FallbackConfig) (st : FallbackState)
    (h : config.maxRetries ≤ st.fallbackCount) (more : List FallbackRequest) :
    runFallbacks config (some st) more
      = (some st, more.map fun _ =>
          { executed := false, newStrategy := none
            reason := maxRetriesExceededReason config.maxRetries }) := by
  induction more with
  | nil => rfl
  | cons r rs ih =>
      rw [runFallbacks_cons, executeFallback_denied config st h]
      simp [ih]

/-! ## Claims -/

/-- C1: `classifyExitCode` is a total deterministic function (it is a Lean
function on `ProcessResult`) implementing the first-match precedence table:
exit code 0 is Success regardless of the other flags; exit code 1 with
`killed` false is TestFailure; exit code 2 is BuildError; exit code 124 is
Timeout; otherwise a killed process with a (truthy) signal is Killed with
the exit code and that signal; every remaining input is Unknown with the
exit code — in particular exit code 1 with `killed` true and no signal. -/
theorem classifyExitCode_total_precedence (r : ProcessResult) :
    (r.exitCode = 0 → classifyExitCode r = .success)
  ∧ (r.exitCode = 1 ∧ r.killed = false → classifyExitCode r = .testFailure)
  ∧ (r.exitCode = 2 → classifyExitCode r = .buildError)
  ∧ (r.exitCode = 124 → classifyExitCode r = .timeout)
  ∧ (r.exitCode ≠ 0 → r.exitCode ≠ 2 → r.exitCode ≠ 124 →
      ¬(r.exitCode = 1 ∧ r.killed = false) →
      r.killed = true → strTruthy r.signal = true →
      ∃ s, r.signal = some s ∧ classifyExitCode r = .killed r.exitCode s)
  ∧ (r.exitCode ≠ 0 → r.exitCode ≠ 2 → r.exitCode ≠ 124 →
      ¬(r.exitCode = 1 ∧ r.killed = false) →
      ¬(r.killed = true ∧ strTruthy r.signal = true) →
      classifyExitCode r = .unknown r.exitCode)
  ∧ (r.exitCode = 1 → r.killed = true → r.signal = none →
      classifyExitCode r = .unknown 1) := by
  refine ⟨?_, ?_, ?_, ?_, ?_, ?_, ?_⟩
  · intro h
    simp [classifyExitCode, h]
  · rintro ⟨h1, h2⟩
    simp [classifyExitCode, h1, h2]
  · intro h
    simp [classifyExitCode, h]
  · intro h
    simp [classifyExitCode, h]
  · intro h0 h2 h124 h1k hkill htr
    cases hsig : r.signal with
    | none => rw [hsig] at htr; simp [strTruthy] at htr
    | some s =>
        refine ⟨s, rfl, ?_⟩
        unfold classifyExitCode
        rw [if_neg h0, if_neg h1k, if_neg h2, if_neg h124,
          if_pos (And.intro hkill htr), hsig]
        rfl
  · intro h0 h2 h124 h1k hns
    unfold classifyExitCode
    rw [if_neg h0, if_neg h1k, if_neg h2, if_neg h124, if_neg hns]
  · intro h1 hkill hsig
    simp [classifyExitCode, h1, hkill, hsig, strTruthy]

/-- C1 witness: exit code 1 with `killed: true` and no signal falls through
to Unknown{1}. -/
theorem classifyExitCode_total_precedence_witness :
    classifyExitCode
      { exitCode := 1, signal := none, stdout := "", stderr := ""
        duration := 0, killed := true } = ExitCodeClassification.unknown 1 :=
  (classifyExitCode_total_precedence _).2.2.2.2.2.2 rfl rfl rfl

/-- C2: for every context and every fallback configuration, `makeDecision`
on a BuildError classification is Stop with exit code 2 — by the returned
equation it is never Continue and never Fallback. -/
theorem makeDecision_buildError_stops (context : ErrorContext) (config : FallbackConfig) :
    makeDecision .buildError context config
      = .success (.stop "Build error detected" 2) := rfl

/-- C10: for every Killed classification, every context and every fallback
configuration, `makeDecision` is Stop with the recorded exit code and the
"Unknown error" reason, via the same final rule as Unknown (second
conjunct); a killed process is never eligible for fallback. -/
theorem makeDecision_killed_final_rule (code : Int) (signal : String)
    (context : ErrorContext) (config : FallbackConfig) :
    makeDecision (.killed code signal) context config
      = .success (.stop (unknownErrorReason code) code)
  ∧ makeDecision (.killed code signal) context config
      = makeDecision (.unknown code) context config :=
  ⟨rfl, rfl⟩

/-- C3 counterexample: with fallback disabled (`enabled: false`), the
claimed all-failed context (`{strategy: AllAtOnce, targetsExecuted: 4,
targetsFailed: 4, totalTargets: 4}`) does NOT yield the claimed Fallback
decision — `checkFallbackConditions` returns null and `makeDecision`
continues — refuting the claim's "for every fallback configuration
(enabled or not)". -/
theorem makeDecision_allFailed_disabled_cex :
    makeDecision .testFailure allFailedContext disabledConfig
      ≠ .success (.fallback (.directoryByDirectory 5) (.allTestsFailed 4)) := by
  decide

/-- C3 (amended): for every context whose strategy is AllAtOnce with
`targetsFailed = targetsExecuted > 0` (error rate exactly 1) and every
fallback configuration WITH `enabled: true`, `makeDecision` on TestFailure
is Fallback to DirectoryByDirectory{maxConcurrency: 5} with trigger
AllFailed carrying the context's `totalTargets`. -/
theorem makeDecision_allFailed_fallback (context : ErrorContext) (config : FallbackConfig)
    (hen : config.enabled = true)
    (hstrat : context.executionStrategy.isAllAtOnce = true)
    (hfe : context.targetsFailed = context.targetsExecuted)
    (hpos : 0 < context.targetsExecuted) :
    makeDecision .testFailure context config
      = .success (.fallback (.directoryByDirectory 5)
          (.allTestsFailed context.totalTargets)) := by
  have he : context.targetsExecuted ≠ 0 := Nat.pos_iff_ne_zero.mp hpos
  have hje : jsDivEqOne context.targetsFailed context.targetsExecuted = true := by
    simp [jsDivEqOne, hfe, he]
  simp [makeDecision, checkFallbackConditions, hen, hstrat, hje]

/-- C3 witness: the spec's §8 scenario, with fallback enabled, yields
Fallback{DirectoryByDirectory{5}, AllFailed{4}}. -/
theorem makeDecision_allFailed_fallback_witness :
    makeDecision .testFailure allFailedContext enabledConfig
      = .success (.fallback (.directoryByDirectory 5) (.allTestsFailed 4)) :=
  makeDecision_allFailed_fallback allFailedContext enabledConfig rfl rfl rfl (by decide)

/-- C6 counterexample: `Batch{batchSize: 1, parallel: false}` is a fixed
point of the ladder (`max(1, floor(1/2)) = 1`), so starting there one
application already revisits the start strategy, and the chain never
reaches a strategy with no successor — refuting "starting from any
strategy". -/
theorem determineNextStrategy_batch_fixed_point :
    determineNextStrategy (.batch 1 false) = some (.batch 1 false) := by
  decide

/-- C6 (amended): from AllAtOnce the ladder passes DirectoryByDirectory{5},
terminates at FileByFile{true} and then yields no further strategy, with
the three visited strategies pairwise distinct (no revisit); every
DirectoryByDirectory steps to FileByFile and every FileByFile is terminal,
so every chain from a non-Batch strategy reaches a terminal without
revisiting; Batch strategies however always step to Batch strategies
(halving the batch size), so chains starting from Batch never reach a
successor-free strategy — `Batch{1, parallel: false}` maps to itself. -/
theorem determineNextStrategy_ladder (p : Bool) :
    determineNextStrategy (.allAtOnce p) = some (.directoryByDirectory 5)
  ∧ determineNextStrategy (.directoryByDirectory 5) = some (.fileByFile true)
  ∧ determineNextStrategy (.fileByFile true) = none
  ∧ ([ExecutionStrategy.allAtOnce p, .directoryByDirectory 5, .fileByFile true]).Nodup
  ∧ (∀ m, determineNextStrategy (.directoryByDirectory m) = some (.fileByFile true))
  ∧ (∀ b, determineNextStrategy (.fileByFile b) = none)
  ∧ (∀ n q, determineNextStrategy (.batch n q)
      = some (.batch (max 1 (n / 2)) false)) := by
  refine ⟨rfl, rfl, rfl, ?_, fun m => rfl, fun b => rfl, fun n q => rfl⟩
  simp

/-- C7 counterexample: with 60 packages and an explicit resource
constraint `maxConcurrency: 0`, the code's `|| 5` treats the supplied `0`
as falsy and selects DirectoryByDirectory{maxConcurrency: 5}, not the
claimed DirectoryByDirectory{maxConcurrency: 0}. -/
theorem selectInitialStrategy_zero_concurrency_cex :
    selectInitialStrategy zeroConcurrencyCriteria
        = .directoryByDirectory 5
  ∧ selectInitialStrategy zeroConcurrencyCriteria
        ≠ .directoryByDirectory 0 := by
  refine ⟨by decide, by decide⟩

/-- C7 (amended): `selectInitialStrategy` implements the decision table in
order — small/tight-time projects get AllAtOnce{parallel: false};
otherwise ≤ 50 packages with no resource constraint or `maxConcurrency ≥ 4`
get Batch{10, parallel: true}; otherwise > 50 packages or complex
dependencies get DirectoryByDirectory with
`maxConcurrency = resourceConstraints?.maxConcurrency || 5`
(JavaScript `||`: a supplied `0` is falsy and becomes 5, unlike the
claimed `??`); otherwise FileByFile{stopOnFirstError: true}.  The §8
scenario `{totalPackages: 5, hasComplexDependencies: false,
timeConstraintSeconds: 300}` yields AllAtOnce{parallel: false}. -/
theorem selectInitialStrategy_table (criteria : StrategySelectionCriteria) :
    (criteria.totalPackages ≤ 10 ∨ criteria.timeConstraints < 60 →
        selectInitialStrategy criteria = .allAtOnce false)
  ∧ (¬(criteria.totalPackages ≤ 10 ∨ criteria.timeConstraints < 60) →
      criteria.totalPackages ≤ 50 ∧ hasGoodResources criteria.resourceConstraints = true →
        selectInitialStrategy criteria = .batch 10 true)
  ∧ (¬(criteria.totalPackages ≤ 10 ∨ criteria.timeConstraints < 60) →
      ¬(criteria.totalPackages ≤ 50 ∧ hasGoodResources criteria.resourceConstraints = true) →
      (50 < criteria.totalPackages ∨ criteria.hasComplexDependencies = true) →
        selectInitialStrategy criteria
          = .directoryByDirectory
              (jsNumOrDefault
                (criteria.resourceConstraints.map ResourceConstraints.maxConcurrency) 5))
  ∧ (¬(criteria.totalPackages ≤ 10 ∨ criteria.timeConstraints < 60) →
      ¬(criteria.totalPackages ≤ 50 ∧ hasGoodResources criteria.resourceConstraints = true) →
      ¬(50 < criteria.totalPackages ∨ criteria.hasComplexDependencies = true) →
        selectInitialStrategy criteria = .fileByFile true)
  ∧ selectInitialStrategy
      { totalPackages := 5, hasComplexDependencies := false
        timeConstraints := 300, resourceConstraints := none } = .allAtOnce false
  ∧ (∀ d, jsNumOrDefault (some 0) d = d)
  ∧ jsNumOrDefault none 5 = 5 := by
  refine ⟨?_, ?_, ?_, ?_, by decide, fun d => rfl, rfl⟩
  · intro h
    unfold selectInitialStrategy
    rw [if_pos h]
  · intro h1 h2
    unfold selectInitialStrategy
    rw [if_neg h1, if_pos h2]
  · intro h1 h2 h3
    unfold selectInitialStrategy
    rw [if_neg h1, if_neg h2, if_pos h3]
  · intro h1 h2 h3
    unfold selectInitialStrategy
    rw [if_neg h1, if_neg h2, if_neg h3]

/-- C7 witness: the third rule applied to the zero-concurrency criteria
keeps the code's `|| 5` default. -/
theorem selectInitialStrategy_table_witness :
    selectInitialStrategy zeroConcurrencyCriteria = .directoryByDirectory 5 :=
  (selectInitialStrategy_table zeroConcurrencyCriteria).2.2.1
    (by decide) (by decide) (by decide)

/-- C4: on a coordinator initialized with any strategy, after a sequence of
`executeFallback` calls of which exactly `maxRetries` were granted
(`executed: true`), the run ends in a well-defined state `stF`, the next
call — with any trigger, context and strategy — is denied with the
max-retries-exceeded reason and post-state exactly `stF` (so
`fallbackCount`, `triggers` and `currentStrategy` are unchanged), and every
further sequence of calls from `stF` keeps the state at `stF` and returns
only denials. -/
theorem executeFallback_after_exhaustion
    (config : FallbackConfig) (orig : ExecutionStrategy) (t0 : Nat)
    (reqs : List FallbackRequest)
    (hmax : countGranted
        (runFallbacks config (some (initFallbackState orig t0)) reqs).2
      = config.maxRetries)
    (tr : FallbackTrigger) (ctx : ErrorContext) (ns : ExecutionStrategy) :
    ∃ stF : FallbackState,
      (runFallbacks config (some (initFallbackState orig t0)) reqs).1 = some stF
    ∧ executeFallback config (some stF) tr ctx ns
        = (.success { executed := false, newStrategy := none
                      reason := maxRetriesExceededReason config.maxRetries }, some stF)
    ∧ ∀ more : List FallbackRequest,
        runFallbacks config (some stF) more
          = (some stF, more.map fun _ =>
              { executed := false, newStrategy := none
                reason := maxRetriesExceededReason config.maxRetries }) := by
  obtain ⟨stF, h1, h2⟩ := runFallbacks_count config reqs (initFallbackState orig t0)
  have hcount : stF.fallbackCount = config.maxRetries := by
    rw [h2, hmax]
    simp [initFallbackState]
  have hle : config.maxRetries ≤ stF.fallbackCount := Nat.le_of_eq hcount.symm
  exact ⟨stF, h1, executeFallback_denied config stF hle tr ctx ns,
    runFallbacks_denied config stF hle⟩

/-- C4 witness: with `maxRetries: 1`, one granted fallback exhausts the
budget, and the next request is denied without mutation. -/
theorem executeFallback_after_exhaustion_witness :
    ∃ stF : FallbackState,
      (runFallbacks singleRetryConfig
        (some (initFallbackState (.allAtOnce false) 0)) [sampleRequest]).1 = some stF
    ∧ executeFallback singleRetryConfig (some stF)
        (.allTestsFailed 4) allFailedContext (.fileByFile true)
        = (.success { executed := false, newStrategy := none
                      reason := maxRetriesExceededReason singleRetryConfig.maxRetries },
           some stF)
    ∧ ∀ more : List FallbackRequest,
        runFallbacks singleRetryConfig (some stF) more
          = (some stF, more.map fun _ =>
              { executed := false, newStrategy := none
                reason := maxRetriesExceededReason singleRetryConfig.maxRetries }) :=
  executeFallback_after_exhaustion singleRetryConfig (.allAtOnce false) 0
    [sampleRequest] (by decide) (.allTestsFailed 4) allFailedContext (.fileByFile true)

/-- C5: the state invariant `fallbackCount ≤ maxRetries ∧
triggers.length = fallbackCount` holds immediately after initialization,
is preserved by every `executeFallback` call (granted or denied, from any
state including the uninitialized one), and holds after `reset`. -/
theorem fallbackState_invariant (config : FallbackConfig) :
    (∀ (orig : ExecutionStrategy) (t0 : Nat),
        fallbackInvariant config (some (initFallbackState orig t0)))
  ∧ (∀ (s : Option FallbackState) (tr : FallbackTrigger) (ctx : ErrorContext)
        (ns : ExecutionStrategy),
        fallbackInvariant config s →
        fallbackInvariant config (executeFallback config s tr ctx ns).2)
  ∧ fallbackInvariant config resetState := by
  refine ⟨fun orig t0 => ⟨Nat.zero_le _, rfl⟩, ?_, trivial⟩
  intro s tr ctx ns hinv
  cases s with
  | none => exact trivial
  | some st =>
      by_cases h : config.maxRetries ≤ st.fallbackCount
      · rw [executeFallback_denied config st h]
        exact hinv
      · rw [executeFallback_granted config st (Nat.not_le.mp h)]
        obtain ⟨h1, h2⟩ := hinv
        refine ⟨Nat.not_le.mp h, ?_⟩
        simp [h2]

/-- C5 witness: a granted call from a freshly initialized state keeps the
invariant. -/
theorem fallbackState_invariant_witness :
    fallbackInvariant enabledConfig
      (executeFallback enabledConfig (some (initFallbackState (.allAtOnce false) 0))
        (.allTestsFailed 4) allFailedContext (.directoryByDirectory 5)).2 :=
  (fallbackState_invariant enabledConfig).2.1
    (some (initFallbackState (.allAtOnce false) 0))
    (.allTestsFailed 4) allFailedContext (.directoryByDirectory 5)
    ⟨Nat.zero_le _, rfl⟩

/-- C8: the batch runner never silently drops failures.  For
`TestExecutor.executeParallel` (which has no fail-fast path: it always runs
every group), the accumulated error collection is exactly the per-target
failures in target order and the accumulated results are exactly the
successes; when every target fails the error collection has one entry per
target, there are zero successes, and the returned value is the aggregate
failure carrying that full error list.  For
`ParallelTestExecutor.executeParallel` with `failFast: false`, the run
succeeds with one entry per package — a permutation (by the depth sort) of
the per-package entries, each failing package contributing its synthetic
`success: false` entry alongside the successful ones — and when every
package fails there are as many entries as packages and none with
`success: true`. -/
theorem executeParallel_no_silent_drop
    (exec : ExecutionTarget → Result TestExecutionResult DomainError)
    (targets : List ExecutionTarget) (k : Nat) (hk : 0 < k)
    (cfg : ParallelConfig) (hff : cfg.failFast = false) (hbs : 0 < cfg.batchSize)
    (test : String → Result TestExecutionResult DomainError) (pkgs : List String) :
    (collectParallel exec targets k).2 = targets.filterMap (errOf exec)
  ∧ (collectParallel exec targets k).1 = targets.filterMap (okOf exec)
  ∧ ((∀ t ∈ targets, ∃ e, exec t = .failure e) →
      (collectParallel exec targets k).2.length = targets.length
      ∧ (collectParallel exec targets k).1 = []
      ∧ (targets ≠ [] →
          executeParallelTE exec targets k
            = .failure { domain := "execution", kind := "ProcessSpawnFailed"
                         errors := targets.filterMap (errOf exec)
                         message := "Multiple execution failures" }))
  ∧ (∃ entries, executeParallelPTE cfg test pkgs = .success entries
      ∧ entries.Perm (pkgs.map (entryFor test))
      ∧ ((∀ p ∈ pkgs, ∃ e, test p = .failure e) →
          entries.length = pkgs.length
          ∧ entries.countP BatchEntry.entrySuccess = 0)) := by
  have hcol := collectParallel_spec exec targets hk
  refine ⟨by rw [hcol], by rw [hcol], ?_, ?_⟩
  · intro hall
    have herrlen : (targets.filterMap (errOf exec)).length = targets.length := by
      refine filterMap_length_of_forall_isSome targets fun t ht => ?_
      obtain ⟨e, he⟩ := hall t ht
      simp [errOf, he]
    have hoknil : targets.filterMap (okOf exec) = [] := by
      refine List.filterMap_eq_nil_iff.mpr fun t ht => ?_
      obtain ⟨e, he⟩ := hall t ht
      simp [okOf, he]
    refine ⟨by rw [hcol]; exact herrlen, by rw [hcol]; exact hoknil, ?_⟩
    intro hne
    have hpos : 0 < (collectParallel exec targets k).2.length := by
      rw [hcol]
      simpa [herrlen] using List.length_pos.mpr hne
    rw [executeParallelTE]
    simp only [hpos, if_pos]
    rw [hcol]
  · refine ⟨(pkgs.mergeSort fun a b => decide (pathDepth a ≤ pathDepth b)).map
      (entryFor test), executeParallelPTE_noFailFast cfg hff hbs test pkgs, ?_, ?_⟩
    · exact (List.mergeSort_perm pkgs _).map (entryFor test)
    · intro hall
      have hperm := List.mergeSort_perm pkgs fun a b => decide (pathDepth a ≤ pathDepth b)
      constructor
      · rw [List.length_map, hperm.length_eq]
      · rw [List.countP_map, hperm.countP_eq]
        refine List.countP_eq_zero.mpr fun p hp => ?_
        obtain ⟨e, he⟩ := hall p hp
        simp [Function.comp, entryFor, he, BatchEntry.entrySuccess]

/-- C8 witness: a single all-failing target with concurrency 2 on the
`TestExecutor` side, and two all-failing packages with `failFast: false`
on the `ParallelTestExecutor` side. -/
theorem executeParallel_no_silent_drop_witness :
    (collectParallel failingExec [.packageTarget "p"] 2).2
        = [ExecutionTarget.packageTarget "p"].filterMap (errOf failingExec)
  ∧ (collectParallel failingExec [.packageTarget "p"] 2).1
        = [ExecutionTarget.packageTarget "p"].filterMap (okOf failingExec)
  ∧ ((∀ t ∈ [ExecutionTarget.packageTarget "p"], ∃ e, failingExec t = .failure e) →
      (collectParallel failingExec [.packageTarget "p"] 2).2.length
          = [ExecutionTarget.packageTarget "p"].length
      ∧ (collectParallel failingExec [.packageTarget "p"] 2).1 = []
      ∧ ([ExecutionTarget.packageTarget "p"] ≠ [] →
          executeParallelTE failingExec [.packageTarget "p"] 2
            = .failure { domain := "execution", kind := "ProcessSpawnFailed"
                         errors := [ExecutionTarget.packageTarget "p"].filterMap
                           (errOf failingExec)
                         message := "Multiple execution failures" }))
  ∧ (∃ entries, executeParallelPTE noFailFastConfig failingTest ["a", "b"]
        = .success entries
      ∧ entries.Perm (["a", "b"].map (entryFor failingTest))
      ∧ ((∀ p ∈ ["a", "b"], ∃ e, failingTest p = .failure e) →
          entries.length = ["a", "b"].length
          ∧ entries.countP BatchEntry.entrySuccess = 0)) :=
  executeParallel_no_silent_drop failingExec [.packageTarget "p"] 2 (by decide)
    noFailFastConfig rfl (by decide) failingTest ["a", "b"]

/-- C9: `executeParallel` partitions the targets into consecutive groups —
flattening the groups gives back the target list, every group is non-empty
of size at most `maxConcurrency`, and every group but the last has size
exactly `maxConcurrency`; each group's per-target outcomes are awaited
together and appended in order (the sequential fold over groups of
`collectParallel`), so the aggregate equals the in-order outcomes of the
flattened partition; every list of 5 targets with `maxConcurrency: 2`
forms exactly 3 groups of sizes 2, 2 and 1. -/
theorem executeParallel_barrier_groups
    (k : Nat) (hk : 0 < k) (targets : List ExecutionTarget)
    (exec : ExecutionTarget → Result TestExecutionResult DomainError)
    (a b c d e : ExecutionTarget) :
    (chunkList k targets).flatten = targets
  ∧ (∀ g ∈ chunkList k targets, 0 < g.length ∧ g.length ≤ k)
  ∧ (∀ g ∈ (chunkList k targets).dropLast, g.length = k)
  ∧ (chunkList 2 [a, b, c, d, e]).map List.length = [2, 2, 1]
  ∧ collectParallel exec targets k
      = ((chunkList k targets).flatten.filterMap (okOf exec),
         (chunkList k targets).flatten.filterMap (errOf exec)) := by
  refine ⟨chunkList_join hk targets, chunkList_mem_length hk targets,
    chunkList_dropLast_length hk targets, ?_, ?_⟩
  · simp [chunkList]
  · rw [chunkList_join hk targets]
    exact collectParallel_spec exec targets hk

/-- C9 witness: five concrete targets with `maxConcurrency: 2`. -/
theorem executeParallel_barrier_groups_witness :
    (chunkList 2 [ExecutionTarget.packageTarget "x"]).flatten
        = [ExecutionTarget.packageTarget "x"]
  ∧ (∀ g ∈ chunkList 2 [ExecutionTarget.packageTarget "x"],
        0 < g.length ∧ g.length ≤ 2)
  ∧ (∀ g ∈ (chunkList 2 [ExecutionTarget.packageTarget "x"]).dropLast, g.length = 2)
  ∧ (chunkList 2 [ExecutionTarget.packageTarget "a", .packageTarget "b",
        .packageTarget "c", .packageTarget "d", .packageTarget "e"]).map List.length
      = [2, 2, 1]
  ∧ collectParallel failingExec [ExecutionTarget.packageTarget "x"] 2
      = ((chunkList 2 [ExecutionTarget.packageTarget "x"]).flatten.filterMap
           (okOf failingExec),
         (chunkList 2 [ExecutionTarget.packageTarget "x"]).flatten.filterMap
           (errOf failingExec)) :=
  executeParallel_barrier_groups 2 (by decide) [.packageTarget "x"] failingExec
    (.packageTarget "a") (.packageTarget "b") (.packageTarget "c")
    (.packageTarget "d") (.packageTarget "e")

end GoLocalCI
